import Mathlib

set_option maxRecDepth 10000

/-!
Verification development for the BigBird block-sparse attention core of
`paddlenlp/transformers/attention_utils.py`.

The first half embeds the numpy mask-construction code: the `Mask` class
(`__init__`, `_create_global_mask`, `_create_window_mask`,
`_create_random_mask`, `_get_window_block_idx`) and the free functions
`create_bigbird_rand_mask_idx` and
`create_bigbird_simulated_attention_mask_list`.

The source draws randomness from the numpy global generator
(`np.random.seed`, `np.random.permutation`).  That generator is modelled
abstractly by `RngModel`: a state of type Nat, a function `perm` giving the
permutation returned at a given state, a deterministic state-advance `next`
applied once per `np.random.permutation` call, and `seedFn` giving the state
established by `np.random.seed`.  All theorems about the mask code are proved
for an arbitrary `RngModel`; concrete counterexamples and witnesses use the
executable instance `rotRng` (permutation by list rotation).
-/

/-- Abstract model of the numpy global random generator. -/
structure RngModel where
  perm : ℕ → ℕ → List ℕ
  next : ℕ → ℕ
  seedFn : ℕ → ℕ

/-- The constructor arguments of `Mask.__init__` (and of
`create_bigbird_rand_mask_idx`), minus the seed. -/
structure MaskCfg where
  query_length : ℕ
  key_length : ℕ
  num_heads : ℕ
  block_size : ℕ
  window_size : ℕ
  num_global_blocks : ℕ
  num_rand_blocks : ℕ

/-- `self.num_query_blocks = query_length // block_size + int(query_length % block_size != 0)`. -/
def MaskCfg.num_query_blocks (c : MaskCfg) : ℕ :=
  c.query_length / c.block_size + (if c.query_length % c.block_size ≠ 0 then 1 else 0)

/-- `self.num_key_blocks = key_length // block_size + int(key_length % block_size != 0)`. -/
def MaskCfg.num_key_blocks (c : MaskCfg) : ℕ :=
  c.key_length / c.block_size + (if c.key_length % c.block_size ≠ 0 then 1 else 0)

/-- `self.num_window_blocks = window_size // 2`. -/
def MaskCfg.num_window_blocks (c : MaskCfg) : ℕ :=
  c.window_size / 2

/-- Python truthiness of the `seed` argument: `if seed: np.random.seed(seed)`
runs only for a non-None, nonzero seed. -/
def seedTruthy : Option ℕ → Bool
  | none => false
  | some v => v != 0

/-- The RNG state at the start of mask construction: `np.random.seed(seed)`
overwrites the ambient state `s0` only when `seed` is truthy. -/
def initState (M : RngModel) (seed : Option ℕ) (s0 : ℕ) : ℕ :=
  if seedTruthy seed then M.seedFn (seed.getD 0) else s0

/-- RNG state before the n-th `np.random.permutation` call (0-indexed),
starting from state `s0`. -/
def stateAt (M : RngModel) (s0 n : ℕ) : ℕ :=
  M.next^[n] s0

/-- Membership in the `illegal_blocks_idx` set of `_create_random_mask` /
`create_bigbird_rand_mask_idx` for query block `qb`, over key blocks indexed
by `K = num_key_blocks`, `G = num_global_blocks`, `nw = num_window_blocks`.
The four disjuncts are, in source order: the clipped window range
`range(left_key_block_idx, right_key_block_idx + 1)`, the global blocks
`range(num_global_blocks)`, the left-boundary substitute range
`range(num_key_blocks - num_fill_blocks, num_key_blocks)`, and the
right-boundary substitute range
`range(num_global_blocks, num_global_blocks + num_fill_blocks)`.
Computed over ℤ because the reassigned, unclipped `left_key_block_idx =
query_block_idx - num_window_blocks` may be negative in Python. -/
def illegalBlock (K G nw : ℕ) (qb j : ℕ) : Bool :=
  (decide (max 0 ((qb : ℤ) - (nw : ℤ)) ≤ (j : ℤ) ∧
      (j : ℤ) ≤ min ((qb : ℤ) + (nw : ℤ)) ((K : ℤ) - 1))) ||
  (decide (j < G)) ||
  ((decide ((G : ℤ) > (qb : ℤ) - (nw : ℤ))) &&
    decide ((K : ℤ) - ((G : ℤ) - ((qb : ℤ) - (nw : ℤ))) ≤ (j : ℤ) ∧ (j : ℤ) < (K : ℤ))) ||
  ((decide ((qb : ℤ) + (nw : ℤ) ≥ (K : ℤ))) &&
    decide ((G : ℤ) ≤ (j : ℤ) ∧ (j : ℤ) < (G : ℤ) + ((qb : ℤ) + (nw : ℤ) - (K : ℤ) + 1)))

/-- Loop body of the selection loop:
`for j in perm_block: if j not in illegal: legal.append(j); if len(legal) == num_rand_blocks: break`.
Note the length test runs on every iteration, after the conditional append;
the two branches of the conditional append are written out. -/
def takeLegalGo (illegal : ℕ → Bool) (R : ℕ) : List ℕ → List ℕ → List ℕ
  | [], acc => acc
  | j :: rest, acc =>
    if illegal j then
      (if acc.length = R then acc else takeLegalGo illegal R rest acc)
    else
      (if (acc ++ [j]).length = R then acc ++ [j] else takeLegalGo illegal R rest (acc ++ [j]))

/-- `legal_blocks_idx` computed from one permutation draw. -/
def takeLegal (permList : List ℕ) (illegal : ℕ → Bool) (R : ℕ) : List ℕ :=
  takeLegalGo illegal R permList []

/-- The number of legal (never-illegal) key blocks for query block `qb`. -/
def legalCount (K G nw : ℕ) (qb : ℕ) : ℕ :=
  ((List.range K).filter (fun j => ! illegalBlock K G nw qb j)).length

/-- `legal_blocks_idx` chosen by `Mask._create_random_mask` for query block
`qb` and head `h`, when construction starts at RNG state `s`.  The loops run
`for query_block_idx in range(num_query_blocks): for i in range(num_heads)`,
so the permutation for `(qb, h)` is the `(qb * num_heads + h)`-th draw. -/
def maskSel (M : RngModel) (c : MaskCfg) (s : ℕ) (qb h : ℕ) : List ℕ :=
  takeLegal (M.perm (stateAt M s (qb * c.num_heads + h)) c.num_key_blocks)
    (illegalBlock c.num_key_blocks c.num_global_blocks c.num_window_blocks qb)
    c.num_rand_blocks

/-- Row membership `query_left_idx <= q < query_right_idx` for query block
`qb`, with `query_right_idx = min((qb + 1) * block_size, query_length)`. -/
def inQueryBlock (c : MaskCfg) (qb q : ℕ) : Bool :=
  decide (qb * c.block_size ≤ q ∧ q < min ((qb + 1) * c.block_size) c.query_length)

/-- `mask` after `_create_global_mask`: starting from zeros,
`mask[:, 0:G*bs, :] = 1` and `mask[:, :, 0:G*bs] = 1`. -/
def globalMaskFn (c : MaskCfg) : ℕ → ℕ → ℕ → ℕ := fun _h q k =>
  if q < c.num_global_blocks * c.block_size ∨ k < c.num_global_blocks * c.block_size
  then 1 else 0

/-- Whether position `(q, k)` is written by `_create_window_mask`: some query
block `qb` covers row `q` and `left_key_block_idx * bs <= k <
(right_key_block_idx + 1) * bs` with the clipped window bounds of
`_get_window_block_idx`. -/
def windowCond (c : MaskCfg) (q k : ℕ) : Bool :=
  (List.range c.num_query_blocks).any (fun qb =>
    inQueryBlock c qb q &&
    decide ((max 0 ((qb : ℤ) - (c.num_window_blocks : ℤ))) * (c.block_size : ℤ) ≤ (k : ℤ) ∧
      (k : ℤ) < ((min ((qb : ℤ) + (c.num_window_blocks : ℤ))
        ((c.num_key_blocks : ℤ) - 1)) + 1) * (c.block_size : ℤ)))

/-- The window sub-mask alone (the writes of `_create_window_mask` applied to
a zero array). -/
def windowMaskFn (c : MaskCfg) : ℕ → ℕ → ℕ → ℕ := fun _h q k =>
  if windowCond c q k then 1 else 0

/-- `mask` after `_create_window_mask` (windows written on top of the global
mask; both steps only write ones). -/
def maskAfterWindowFn (c : MaskCfg) : ℕ → ℕ → ℕ → ℕ := fun h q k =>
  if windowCond c q k then 1 else globalMaskFn c h q k

/-- Whether `rand_mask[h, q, k]` is written by `_create_random_mask`:
some query block `qb` covers row `q` and some selected block `j` of head `h`
covers column `k`, with `key_right_idx = min((j + 1) * bs, key_length)`. -/
def randCond (M : RngModel) (c : MaskCfg) (s : ℕ) (h q k : ℕ) : Bool :=
  (List.range c.num_query_blocks).any (fun qb =>
    inQueryBlock c qb q &&
    (maskSel M c s qb h).any (fun j =>
      decide (j * c.block_size ≤ k ∧ k < min ((j + 1) * c.block_size) c.key_length)))

/-- The `rand_mask` array. -/
def randMaskFn (M : RngModel) (c : MaskCfg) (s : ℕ) : ℕ → ℕ → ℕ → ℕ := fun h q k =>
  if randCond M c s h q k then 1 else 0

/-- The final mask: `self.mask = np.maximum(self.rand_mask, self.mask)`. -/
def finalMaskFn (M : RngModel) (c : MaskCfg) (s : ℕ) : ℕ → ℕ → ℕ → ℕ := fun h q k =>
  max (randMaskFn M c s h q k) (maskAfterWindowFn c h q k)

/-- The triple loop flattening `rand_mask_idx`:
`for i in range(H): for j in range(L): for k in range(R): out.append([i, grid[i][j][k]])`. -/
def tripleLoop (g : ℕ → ℕ → ℕ → ℕ) (H L R : ℕ) : List (ℕ × ℕ) :=
  (List.range H).foldl (fun acc i =>
    (List.range L).foldl (fun acc2 j =>
      (List.range R).foldl (fun acc3 kk => acc3 ++ [(i, g i j kk)]) acc2) acc) []

/-- The flat `rand_mask_idx` of `Mask`: the per-head selection grid is
stacked, the first `num_global_blocks` query-block rows are dropped, and the
remainder flattened by the triple loop (entry `[i, self.rand_mask_idx[i][j][k]]`). -/
def maskFlatIdx (M : RngModel) (c : MaskCfg) (s : ℕ) : List (ℕ × ℕ) :=
  tripleLoop (fun i j kk => (maskSel M c s (c.num_global_blocks + j) i).getD kk 0)
    c.num_heads (c.num_query_blocks - c.num_global_blocks)
    (maskSel M c s 0 0).length

/-- Success of `np.stack(self.rand_mask_idx, axis=0)` followed by reading
`shape[2]`: at least one head and one query block, and all selection lists of
equal length (a ragged grid raises, either at array construction in current
numpy or at the rank-3 `shape[2]` access on the resulting object array). -/
def maskSuccess (M : RngModel) (c : MaskCfg) (s : ℕ) : Bool :=
  decide (1 ≤ c.num_heads) && decide (1 ≤ c.num_query_blocks) &&
  ((List.range c.num_heads).all (fun h =>
    (List.range c.num_query_blocks).all (fun qb =>
      (maskSel M c s qb h).length == (maskSel M c s 0 0).length)))

/-- The value of `get_float_mask()` at one position: 1 maps to 0, anything
else to -inf (modelled as `none`). -/
def floatMaskFn (M : RngModel) (c : MaskCfg) (s : ℕ) : ℕ → ℕ → ℕ → Option ℚ :=
  fun h q k => if finalMaskFn M c s h q k = 1 then some 0 else none

/-- Materialization of a `[num_heads, query_length, key_length]` array. -/
def materialize {α : Type} (c : MaskCfg) (f : ℕ → ℕ → ℕ → α) : List (List (List α)) :=
  (List.range c.num_heads).map (fun h =>
    (List.range c.query_length).map (fun q =>
      (List.range c.key_length).map (fun k => f h q k)))

/-- The observable results of a completed `Mask` construction. -/
structure MaskResult where
  mask : ℕ → ℕ → ℕ → ℕ
  rand_mask : ℕ → ℕ → ℕ → ℕ
  rand_mask_idx : List (ℕ × ℕ)
  mask_list : List (List (List ℕ))
  float_mask_list : List (List (List (Option ℚ)))
  final_state : ℕ

/-- The result of a `Mask` construction starting from post-seeding RNG
state `s`. -/
def mkMaskResult (M : RngModel) (c : MaskCfg) (s : ℕ) : MaskResult :=
  ⟨finalMaskFn M c s, randMaskFn M c s, maskFlatIdx M c s,
    materialize c (finalMaskFn M c s), materialize c (floatMaskFn M c s),
    stateAt M s (c.num_query_blocks * c.num_heads)⟩

/-- `Mask.__init__(query_length, ..., seed)` run with ambient RNG state `s0`:
seeds if `seed` is truthy, builds the global, window and random masks, and
returns the object unless the ragged `np.stack` raises. -/
def buildMask (M : RngModel) (c : MaskCfg) (seed : Option ℕ) (s0 : ℕ) : Option MaskResult :=
  if maskSuccess M c (initState M seed s0) then some (mkMaskResult M c (initState M seed s0))
  else none

/-- One layer of `create_bigbird_simulated_attention_mask_list`: the tensors
made from `mask.get_float_mask()` and `mask.get_rand_mask_idx()`. -/
def simLayer (r : MaskResult) : List (List (List (Option ℚ))) × List (ℕ × ℕ) :=
  (r.float_mask_list, r.rand_mask_idx)

/-- `create_bigbird_simulated_attention_mask_list`: one `Mask` per layer,
every layer constructed with the same `seed` argument, the ambient RNG state
threading through the layers. -/
def simulatedMaskList (M : RngModel) (c : MaskCfg) (seed : Option ℕ) :
    ℕ → ℕ → Option (List (List (List (List (Option ℚ))) × List (ℕ × ℕ)))
  | 0, _s => some []
  | n + 1, s =>
    (buildMask M c seed s).bind (fun r =>
      (simulatedMaskList M c seed n r.final_state).map (fun rest => simLayer r :: rest))

/-- `create_bigbird_rand_mask_idx` uses floor divisions:
`num_key_blocks = key_length // block_size`. -/
def MaskCfg.num_key_blocks_floor (c : MaskCfg) : ℕ :=
  c.key_length / c.block_size

/-- `num_query_blocks = query_length // block_size` in
`create_bigbird_rand_mask_idx`. -/
def MaskCfg.num_query_blocks_floor (c : MaskCfg) : ℕ :=
  c.query_length / c.block_size

/-- `legal_blocks_idx` chosen by `create_bigbird_rand_mask_idx` for query
block `qb` and head `h` starting at ambient RNG state `s`.  The function
never calls `np.random.seed`; its `seed` argument is unused. -/
def createSel (M : RngModel) (c : MaskCfg) (s : ℕ) (qb h : ℕ) : List ℕ :=
  takeLegal (M.perm (stateAt M s (qb * c.num_heads + h)) c.num_key_blocks_floor)
    (illegalBlock c.num_key_blocks_floor c.num_global_blocks c.num_window_blocks qb)
    c.num_rand_blocks

/-- Completion of `create_bigbird_rand_mask_idx` after the selection loops:
the `np.stack` / `shape[2]` sequence needs at least one head and one query
block and equal selection lengths (same shape discipline as in `Mask`), and
in addition the `np.pad(head_idx, ([0, 0], [0, L * R - 1]), mode="edge")`
call needs a nonnegative pad width: `L * R >= 1` for the sliced shape
`(H, L, R) = (num_heads, num_query_blocks - num_global_blocks,
selection length)` — a zero-size sliced grid makes the pad width `-1` and
`np.pad` raise. -/
def createSuccess (M : RngModel) (c : MaskCfg) (s : ℕ) : Bool :=
  decide (1 ≤ c.num_heads) && decide (1 ≤ c.num_query_blocks_floor) &&
  ((List.range c.num_heads).all (fun h =>
    (List.range c.num_query_blocks_floor).all (fun qb =>
      (createSel M c s qb h).length == (createSel M c s 0 0).length))) &&
  decide (1 ≤ (c.num_query_blocks_floor - c.num_global_blocks)
    * (createSel M c s 0 0).length)

/-- The head column built by
`np.pad(np.arange(H).reshape([-1,1]), ([0,0],[0,L*R-1]), mode="edge").reshape([-1,1])`:
each head index repeated `L * R` times. -/
def createHeadCol (H n : ℕ) : List ℤ :=
  (List.range H).flatMap (fun h => List.replicate n (h : ℤ))

/-- The value column: `(rand_mask_idx[:, G:] - G // 2).reshape([-1, 1])`,
the row-major flattening of the global-sliced grid with
`num_global_blocks // 2` subtracted from every entry. -/
def createRandCol (M : RngModel) (c : MaskCfg) (s : ℕ) : List ℤ :=
  (List.range c.num_heads).flatMap (fun h =>
    (List.range (c.num_query_blocks_floor - c.num_global_blocks)).flatMap (fun j =>
      (createSel M c s (c.num_global_blocks + j) h).map (fun (v : ℕ) =>
        (v : ℤ) - ((c.num_global_blocks / 2 : ℕ) : ℤ))))

/-- `np.concatenate([head_idx, rand_mask_idx], axis=1)`: the zip of the two
columns into `(head_index, shifted key_block_index)` rows. -/
def createFlat (M : RngModel) (c : MaskCfg) (s : ℕ) : List (ℤ × ℤ) :=
  (createHeadCol c.num_heads
      ((c.num_query_blocks_floor - c.num_global_blocks) * (createSel M c s 0 0).length)).zip
    (createRandCol M c s)

/-- `create_bigbird_rand_mask_idx(num_layers, ..., seed)` run at ambient RNG
state `s0`: returns the flat index list (or `none` if the ragged stack
raises) together with the RNG state after all permutation draws.  The `seed`
argument is accepted but never used, exactly as in the source. -/
def createRandMaskIdx (M : RngModel) (c : MaskCfg) (_seed : Option ℕ) (s0 : ℕ) :
    Option (List (ℤ × ℤ)) × ℕ :=
  ((if createSuccess M c s0 then some (createFlat M c s0) else none),
    stateAt M s0 (c.num_query_blocks_floor * c.num_heads))

/-- Concrete executable RNG model used for witnesses and counterexamples:
the permutation at state `s` is `range n` rotated left by `s`, each call
advances the state by one, and seeding sets the state to the seed. -/
def rotRng : RngModel :=
  ⟨fun s n => (List.range n).rotate s, fun s => s + 1, fun v => v⟩

/-!
Embedding of `BigBirdSparseAttention` (`_get_global_out`, `_get_band_mask`,
`_get_band_matrix` and `forward`).  Tensors are total functions from indices
to ℚ; the declared shapes of the source appear as explicit size parameters.
The nonalgebraic kernels (softmax rows, dropout, the `d_head ** -0.5` scale)
are abstracted into a `TensorSem` record: every theorem below holds for an
arbitrary semantics, which is all the verified claims require.
In the source of `forward`, the random-attention path (the
`_get_rand_mask` / `_gather_random_key_value` calls and the concatenation of
their results) is commented out: `second_mask = band_mask`,
`second_key_matrix = band_keys_matrix`, `second_value_matrix =
band_value_matrix`.  Consequently neither `attn_mask` nor `rand_mask_idx` is
ever read; both still appear as arguments below, exactly as in the source
signature.
-/

/-- A 3-axis tensor as a function of its indices. -/
abbrev Fn3 : Type := ℕ → ℕ → ℕ → ℚ

/-- A 4-axis tensor as a function of its indices. -/
abbrev Fn4 : Type := ℕ → ℕ → ℕ → ℕ → ℚ

/-- A 5-axis tensor as a function of its indices. -/
abbrev Fn5 : Type := ℕ → ℕ → ℕ → ℕ → ℕ → ℚ

/-- Abstract semantics of the nonalgebraic tensor kernels. -/
structure TensorSem where
  softmax : ℕ → (ℕ → ℚ) → ℕ → ℚ
  drop4 : ℚ → Bool → Fn4 → Fn4
  drop5 : ℚ → Bool → Fn5 → Fn5
  rsqrt : ℚ → ℚ

/-- The constructor configuration of `BigBirdSparseAttention`. -/
structure SAttnCfg where
  num_heads : ℕ
  block_size : ℕ
  window_size : ℕ
  num_global_blocks : ℕ
  num_rand_blocks : ℕ

/-- `self.num_global_blocks_back = num_global_blocks // 2`. -/
def SAttnCfg.num_global_blocks_back (c : SAttnCfg) : ℕ :=
  c.num_global_blocks / 2

/-- `self.num_global_blocks_front`: `G // 2` if `G` even else `G // 2 + 1`. -/
def SAttnCfg.num_global_blocks_front (c : SAttnCfg) : ℕ :=
  if c.num_global_blocks % 2 = 0 then c.num_global_blocks / 2
  else c.num_global_blocks / 2 + 1

/-- `_get_global_out`: the first (or last) `G_front (G_back) * block_size`
query rows attend densely to all `T` keys, with the additive
`(1 - key_mask) * -1e6` penalty, softmax over the key axis, optional
dropout, and a weighted sum over the values. -/
def getGlobalOut (sem : TensorSem) (c : SAttnCfg) (training : Bool) (T D : ℕ)
    (query_matrix key_matrix value_matrix : Fn4) (key_mask : Fn4)
    (d_head dropout : ℚ) (front : Bool) : Fn4 :=
  let GB := c.num_global_blocks_back
  let bs := c.block_size
  let gq : Fn4 :=
    if front then query_matrix
    else fun b h r d => query_matrix b h (T - GB * bs + r) d
  let gp : Fn4 := fun b h r t =>
    (Finset.sum (Finset.range D) (fun d => gq b h r d * key_matrix b h t d)) * sem.rsqrt d_head
      + (1 - key_mask b 0 0 t) * (-1000000)
  let gw : Fn4 := fun b h r t => sem.softmax T (fun t2 => gp b h r t2) t
  let gw2 := if dropout = 0 then gw else sem.drop4 dropout training gw
  fun b h r d => Finset.sum (Finset.range T) (fun t => gw2 b h r t * value_matrix b h t d)

/-- `_get_band_mask`: the `[B, 1(heads), L-G, bs, (G+W)*bs]` mask over the
concatenated (front-global ++ window ++ back-global) key columns of each
non-global query block, built as the outer product of the sliced query mask
with the rolled/zero-padded key-mask rows. -/
def getBandMask (c : SAttnCfg) (T : ℕ) (query_mask key_mask : Fn4) : Fn5 :=
  let bs := c.block_size
  let G := c.num_global_blocks
  let GF := c.num_global_blocks_front
  let GB := c.num_global_blocks_back
  let W := c.window_size
  let L := T / bs
  let band_length := L - G - W / 2 * 2
  let bkm : Fn3 := fun b l i => key_mask b 0 0 (l * bs + i)
  let tqm : Fn3 := fun b l i => query_mask b 0 ((GF + l) * bs + i) 0
  let wkm : Fn3 := fun b l u =>
    let j := u / bs
    let i2 := u % bs
    if l < W / 2 then
      (if j < l + W / 2 + 1 then bkm b (GF + j) i2 else 0)
    else if l < W / 2 + band_length then
      bkm b (GF + j + (l - W / 2)) i2
    else
      (if j < W - 2 * (W / 2) + (l - W / 2 - band_length) then 0
       else bkm b (L - GB - W + j) i2)
  fun b _h l i u =>
    if u < GF * bs then tqm b l i * key_mask b 0 0 u
    else if u < GF * bs + W * bs then tqm b l i * wkm b l (u - GF * bs)
    else tqm b l i * key_mask b 0 0 ((L - GB) * bs + (u - GF * bs - W * bs))

/-- `_get_band_matrix`: for each non-global query block row `l`, the
`(G+W)*bs` gathered key/value rows, i.e. the wraparound gather for the first
`W//2` rows, the (global-front ++ sliding window ++ global-back) band for
the middle rows, and the wraparound gather for the last `W//2` rows. -/
def getBandMatrix (c : SAttnCfg) (T : ℕ) (blocked_matrix : Fn5) : Fn5 :=
  let bs := c.block_size
  let G := c.num_global_blocks
  let GF := c.num_global_blocks_front
  let GB := c.num_global_blocks_back
  let W := c.window_size
  let L := T / bs
  let band_length := L - G - W / 2 * 2
  fun b h l p d =>
    let cb := p / bs
    let i := p % bs
    if l < W / 2 then
      (if cb < GF + l + W / 2 + 1 then blocked_matrix b h cb i d
       else blocked_matrix b h (L - (G + W) + cb) i d)
    else if l < W / 2 + band_length then
      (if cb < GF then blocked_matrix b h cb i d
       else if cb < GF + W then blocked_matrix b h (cb + (l - W / 2)) i d
       else blocked_matrix b h (L - GB + (cb - (GF + W))) i d)
    else
      (if cb < GF + W - 2 * (W / 2) + (l - W / 2 - band_length) then blocked_matrix b h cb i d
       else blocked_matrix b h (L - (G + W) + cb) i d)

/-- The `second_product` .. `second_out` path of `forward` for the non-global
query rows: band mask as `second_mask`, band keys/values as
`second_key_matrix`/`second_value_matrix` (the random segments are commented
out in the source), scaled dot product, additive `(1 - mask) * -1e6`,
softmax over the `(G+W)*bs` axis, optional dropout, weighted value sum,
reshaped back to `[B, H, (L-G)*bs, D]`. -/
def secondOut (sem : TensorSem) (c : SAttnCfg) (training : Bool) (T D : ℕ)
    (query_matrix key_matrix value_matrix : Fn4)
    (d_head : ℚ) (query_mask key_mask : Fn4) (dropout : ℚ) : Fn4 :=
  let bs := c.block_size
  let G := c.num_global_blocks
  let GF := c.num_global_blocks_front
  let W := c.window_size
  let blocked_key : Fn5 := fun b h l i d => key_matrix b h (l * bs + i) d
  let blocked_value : Fn5 := fun b h l i d => value_matrix b h (l * bs + i) d
  let second_mask := getBandMask c T query_mask key_mask
  let band_keys := getBandMatrix c T blocked_key
  let band_values := getBandMatrix c T blocked_value
  let second_query : Fn5 := fun b h l i d => query_matrix b h ((GF + l) * bs + i) d
  let second_product : Fn5 := fun b h l i p =>
    (Finset.sum (Finset.range D) (fun d => second_query b h l i d * band_keys b h l p d))
      * sem.rsqrt d_head + (1 - second_mask b h l i p) * (-1000000)
  let second_weights : Fn5 := fun b h l i p =>
    sem.softmax ((G + W) * bs) (fun p2 => second_product b h l i p2) p
  let second_weights2 := if dropout = 0 then second_weights else sem.drop5 dropout training second_weights
  fun b h t d =>
    Finset.sum (Finset.range ((G + W) * bs))
      (fun p => second_weights2 b h (t / bs) (t % bs) p * band_values b h (t / bs) p d)

/-- `BigBirdSparseAttention.forward`: global-front rows, then the band
(global+window) rows of the non-global blocks, then global-back rows,
concatenated along the sequence axis and multiplied by `query_mask`.
`attn_mask` and `rand_mask_idx` are parameters of the source signature that
the body never reads (the random path is commented out). -/
def bigbirdForward (sem : TensorSem) (c : SAttnCfg) (training : Bool) (T D : ℕ)
    (query_matrix key_matrix value_matrix : Fn4) (d_head : ℚ)
    (attn_mask : Fn4) (rand_mask_idx : List (ℕ × ℕ))
    (query_mask key_mask : Fn4) (dropout : ℚ) : Fn4 :=
  let G := c.num_global_blocks
  let GF := c.num_global_blocks_front
  let bs := c.block_size
  let L := T / bs
  let gfOut := getGlobalOut sem c training T D query_matrix key_matrix value_matrix
    key_mask d_head dropout true
  let gbOut := getGlobalOut sem c training T D query_matrix key_matrix value_matrix
    key_mask d_head dropout false
  let sOut := secondOut sem c training T D query_matrix key_matrix value_matrix
    d_head query_mask key_mask dropout
  fun b h t d =>
    (if t < GF * bs then gfOut b h t d
     else if t < GF * bs + (L - G) * bs then sOut b h (t - GF * bs) d
     else gbOut b h (t - (GF * bs + (L - G) * bs)) d) * query_mask b 0 t 0

/-! Helper lemmas. -/

/-- A fold that appends a block per element is the flat map of the blocks. -/
theorem foldl_append_blocks {α β : Type} (F : List β → α → List β) (f : α → List β)
    (hF : ∀ acc i, F acc i = acc ++ f i) :
    ∀ (l : List α) (init : List β), l.foldl F init = init ++ l.flatMap f := by
  intro l
  induction l with
  | nil => intro init; simp
  | cons a l ih =>
    intro init
    simp only [List.foldl_cons, List.flatMap_cons, hF, ih, List.append_assoc]

/-- The triple append loop of the `rand_mask_idx` transform, as a flat map. -/
theorem tripleLoop_eq (g : ℕ → ℕ → ℕ → ℕ) (H L R : ℕ) :
    tripleLoop g H L R = (List.range H).flatMap (fun i =>
      (List.range L).flatMap (fun j =>
        (List.range R).map (fun kk => (i, g i j kk)))) := by
  have hinner : ∀ i j (acc : List (ℕ × ℕ)),
      (List.range R).foldl (fun acc3 kk => acc3 ++ [(i, g i j kk)]) acc
        = acc ++ (List.range R).map (fun kk => (i, g i j kk)) := by
    intro i j acc
    rw [foldl_append_blocks _ (fun kk => [(i, g i j kk)]) (fun _ _ => rfl)]
    congr 1
    induction (List.range R) with
    | nil => rfl
    | cons a t ih => simp [List.flatMap_cons, ih]
  have hmid : ∀ i (acc : List (ℕ × ℕ)),
      (List.range L).foldl (fun acc2 j =>
          (List.range R).foldl (fun acc3 kk => acc3 ++ [(i, g i j kk)]) acc2) acc
        = acc ++ (List.range L).flatMap (fun j => (List.range R).map (fun kk => (i, g i j kk))) := by
    intro i acc
    exact foldl_append_blocks _ _ (fun acc2 j => hinner i j acc2) (List.range L) acc
  calc tripleLoop g H L R
      = [] ++ (List.range H).flatMap (fun i =>
          (List.range L).flatMap (fun j => (List.range R).map (fun kk => (i, g i j kk)))) :=
        foldl_append_blocks _ _ (fun acc i => hmid i acc) (List.range H) []
    _ = _ := by simp

/-- Reading a whole list back through `getD` over its index range. -/
theorem map_getD_range {α : Type} (l : List α) (d : α) :
    (List.range l.length).map (fun k => l.getD k d) = l := by
  apply List.ext_getElem?
  intro n
  by_cases h : n < l.length
  · rw [List.getElem?_map, List.getElem?_range h, List.getElem?_eq_getElem h]
    simp [List.getD_eq_getElem?_getD, List.getElem?_eq_getElem h]
  · rw [List.getElem?_map]
    rw [List.getElem?_eq_none (by simpa using h), List.getElem?_eq_none (by omega)]
    rfl

/-- Reading a whole list back through `getD` over its index range, under a
further function. -/
theorem map_comp_getD_range {α β : Type} (l : List α) (d : α) (f : α → β) :
    (List.range l.length).map (fun kk => f (l.getD kk d)) = l.map f := by
  apply List.ext_getElem?
  intro n
  by_cases h : n < l.length
  · rw [List.getElem?_map, List.getElem?_range h, List.getElem?_map,
      List.getElem?_eq_getElem h]
    simp [List.getD_eq_getElem?_getD, List.getElem?_eq_getElem h]
  · rw [List.getElem?_map, List.getElem?_map]
    rw [List.getElem?_eq_none (by simpa using h), List.getElem?_eq_none (by omega)]
    rfl

/-- Length of a flat map whose blocks all have length `n`. -/
theorem length_flatMap_const {α β : Type} (l : List α) (f : α → List β) (n : ℕ)
    (h : ∀ a ∈ l, (f a).length = n) : (l.flatMap f).length = l.length * n := by
  induction l with
  | nil => simp
  | cons a t ih =>
    have ha := h a (List.mem_cons_self a t)
    have ht := ih (fun x hx => h x (List.mem_cons_of_mem a hx))
    simp only [List.flatMap_cons, List.length_append, List.length_cons, ha, ht]
    ring

/-- Zipping a replicated head against a block of matching length. -/
theorem zip_replicate_left {α β : Type} (x : α) (l : List β) :
    (List.replicate l.length x).zip l = l.map (fun b => (x, b)) := by
  induction l with
  | nil => rfl
  | cons a t ih => simp [List.replicate_succ, List.zip_cons_cons, ih]

/-- Zipping the edge-padded head column against the row-major value column
recovers the row-major list of `(head, value)` pairs. -/
theorem zip_flatMap_replicate {α β γ : Type} (f : α → γ) (rows : α → List β) (n : ℕ) :
    ∀ (as : List α), (∀ a ∈ as, (rows a).length = n) →
      (as.flatMap (fun a => List.replicate n (f a))).zip (as.flatMap rows)
        = as.flatMap (fun a => (rows a).map (fun b => (f a, b))) := by
  intro as
  induction as with
  | nil => intro _; rfl
  | cons a t ih =>
    intro h
    have ha := h a (List.mem_cons_self a t)
    have ht := ih (fun x hx => h x (List.mem_cons_of_mem a hx))
    simp only [List.flatMap_cons]
    rw [List.zip_append (by simp [ha]), ht, ← ha, zip_replicate_left]

/-- The selection loop keeps `min R (number of legal entries)` blocks, for a
positive request `R`. -/
theorem takeLegalGo_length (illegal : ℕ → Bool) (R : ℕ) :
    ∀ (l : List ℕ) (acc : List ℕ), acc.length < R →
      (takeLegalGo illegal R l acc).length
        = min R (acc.length + (l.filter (fun j => ! illegal j)).length) := by
  intro l
  induction l with
  | nil =>
    intro acc hacc
    simp only [takeLegalGo, List.filter_nil, List.length_nil, Nat.add_zero]
    omega
  | cons j rest ih =>
    intro acc hacc
    by_cases hj : illegal j = true
    · rw [takeLegalGo, if_pos hj, if_neg (by omega), ih acc hacc, List.filter_cons,
        if_neg (by simp [hj])]
    · have hj2 : (fun x => ! illegal x) j = true := by simp [hj]
      rw [takeLegalGo, if_neg hj, List.filter_cons, if_pos hj2]
      by_cases hlen : (acc ++ [j]).length = R
      · rw [if_pos hlen]
        simp only [List.length_append, List.length_cons, List.length_nil] at hlen ⊢
        omega
      · have hlt : (acc ++ [j]).length < R := by
          simp only [List.length_append, List.length_cons, List.length_nil] at hlen ⊢
          omega
        rw [if_neg hlen, ih (acc ++ [j]) hlt]
        simp only [List.length_append, List.length_cons, List.length_nil]
        omega

/-- Length of one selection: the minimum of the request and the number of
legal entries in the permutation. -/
theorem takeLegal_length (permList : List ℕ) (illegal : ℕ → Bool) (R : ℕ) (hR : 1 ≤ R) :
    (takeLegal permList illegal R).length
      = min R ((permList.filter (fun j => ! illegal j)).length) := by
  rw [takeLegal, takeLegalGo_length illegal R permList [] (by simpa using hR)]
  simp

/-- When the permutation draw really is a permutation of `range K`, a
selection has length `min R (legalCount ...)`. -/
theorem maskSel_length (M : RngModel) (c : MaskCfg) (s qb h : ℕ)
    (hperm : (M.perm (stateAt M s (qb * c.num_heads + h)) c.num_key_blocks).Perm
      (List.range c.num_key_blocks))
    (hR : 1 ≤ c.num_rand_blocks) :
    (maskSel M c s qb h).length
      = min c.num_rand_blocks
          (legalCount c.num_key_blocks c.num_global_blocks c.num_window_blocks qb) := by
  rw [maskSel, takeLegal_length _ _ _ hR, legalCount]
  congr 1
  exact (hperm.filter _).length_eq

/-- Ceiling division, written the way `Mask.__init__` computes it. -/
theorem floor_succ_eq_ceil_div (q b : ℕ) (hb : 0 < b) :
    q / b + (if q % b ≠ 0 then 1 else 0) = (q + b - 1) / b := by
  by_cases h : q % b = 0
  · obtain ⟨k, hk⟩ := Nat.dvd_of_mod_eq_zero h
    subst hk
    have h1 : b * k + b - 1 = b * k + (b - 1) := by omega
    rw [h1, Nat.mul_add_div hb, Nat.div_eq_of_lt (show b - 1 < b by omega),
      Nat.mul_div_cancel_left _ hb]
    simp [Nat.mul_mod_right]
  · have hd := Nat.div_add_mod q b
    have hm := Nat.mod_lt q hb
    have e1 : b * (q / b + 1) = b * (q / b) + b := by ring
    have e2 : q + b - 1 = b * (q / b) + b + (q % b - 1) := by omega
    rw [if_pos h, e2, ← e1, Nat.mul_add_div hb,
      Nat.div_eq_of_lt (show q % b - 1 < b by omega)]

/-- The block grid covers the sequence: `num_blocks * block_size >= length`. -/
theorem le_blocks_mul (q b : ℕ) (hb : 0 < b) :
    q ≤ (q / b + (if q % b ≠ 0 then 1 else 0)) * b := by
  have hd := Nat.div_add_mod q b
  have hm := Nat.mod_lt q hb
  have e3 : q / b * b = b * (q / b) := Nat.mul_comm _ _
  by_cases h : q % b = 0
  · rw [if_neg (by simpa using h), Nat.add_zero, e3]
    omega
  · rw [if_pos h, Nat.add_mul, Nat.one_mul, e3]
    omega

/-- A completed `Mask` construction is the canonical result at the
post-seeding state. -/
theorem buildMask_some_eq {M : RngModel} {c : MaskCfg} {sd : Option ℕ} {s0 : ℕ}
    {res : MaskResult} (h : buildMask M c sd s0 = some res) :
    res = mkMaskResult M c (initState M sd s0) := by
  unfold buildMask at h
  split at h
  · injection h with h2
    exact h2.symm
  · cases h

/-- A completed `Mask` construction passed the shape guard. -/
theorem buildMask_some_success {M : RngModel} {c : MaskCfg} {sd : Option ℕ} {s0 : ℕ}
    {res : MaskResult} (h : buildMask M c sd s0 = some res) :
    maskSuccess M c (initState M sd s0) = true := by
  unfold buildMask at h
  split at h
  · assumption
  · cases h

/-! Concrete instances used by witnesses and counterexamples. -/

/-- Mask geometry `query_length = key_length = 8`, `block_size = 1`, one head,
`window_size = 2`, one global block, one random block. -/
def cfgA8 : MaskCfg := ⟨8, 8, 1, 1, 2, 1, 1⟩

/-- Geometry with `query_length = 4` but `key_length = 8`, used to observe two
consecutive calls of `create_bigbird_rand_mask_idx`. -/
def cfgTwice : MaskCfg := ⟨4, 8, 1, 1, 2, 1, 1⟩

/-- Geometry whose legal-block counts per query block are `[2,...,2,1,0]`
(`query_length = 10 > key_length = 6`, `num_rand_blocks = 2`): the random
selection under-fills non-uniformly. -/
def cfgRagged : MaskCfg := ⟨10, 6, 1, 1, 2, 1, 2⟩

/-- Geometry with two global blocks, so `num_global_blocks // 2 = 1`. -/
def cfgShift : MaskCfg := ⟨8, 8, 1, 1, 2, 2, 1⟩

/-- Tiny geometry in which every query block has zero legal random blocks. -/
def cfgUnder : MaskCfg := ⟨3, 3, 1, 1, 2, 1, 1⟩

/-- The completed `Mask` construction for `cfgA8` with seed 42. -/
def resA8 : MaskResult := (buildMask rotRng cfgA8 (some 42) 0).get (by decide)

/-- `resA8` really is the result of that construction. -/
theorem resA8_def : buildMask rotRng cfgA8 (some 42) 0 = some resA8 :=
  (Option.some_get (by decide)).symm

/-- With a truthy seed, `Mask.__init__` reseeds the generator, so the result
does not depend on the ambient RNG state. -/
theorem buildMask_state_free (M : RngModel) (c : MaskCfg) (v : ℕ) (hv : v ≠ 0) (s : ℕ) :
    buildMask M c (some v) s = buildMask M c (some v) 0 := by
  have ht : seedTruthy (some v) = true := by simp [seedTruthy, hv]
  simp [buildMask, initState, ht]

/-- C1 (amended): `Mask` construction is deterministic for a truthy (non-None,
nonzero) seed: identical arguments give identical mask objects regardless of
the ambient RNG state, because `np.random.seed(seed)` runs first.  (With a
falsy seed, and in `create_bigbird_rand_mask_idx`, which never seeds, the
result depends on the ambient generator state; see the counterexample.) -/
theorem mask_build_deterministic_of_truthy_seed (M : RngModel) (c : MaskCfg)
    (v s1 s2 : ℕ) (hv : v ≠ 0) :
    buildMask M c (some v) s1 = buildMask M c (some v) s2 := by
  rw [buildMask_state_free M c v hv s1, buildMask_state_free M c v hv s2]

/-- C1 witness at a concrete geometry, seed and two ambient states. -/
theorem mask_build_deterministic_of_truthy_seed_witness :
    buildMask rotRng cfgA8 (some 42) 0 = buildMask rotRng cfgA8 (some 42) 77 :=
  mask_build_deterministic_of_truthy_seed rotRng cfgA8 42 0 77 (by decide)

/-- C1 counterexample: `create_bigbird_rand_mask_idx` ignores its `seed`
argument and never reseeds, so two consecutive calls with identical arguments
(seed included) return different index lists. -/
theorem create_rand_mask_idx_not_deterministic :
    (createRandMaskIdx rotRng cfgTwice (some 42) 0).1
        = some [((0 : ℤ), 3), ((0 : ℤ), 4), ((0 : ℤ), 5)]
    ∧ (createRandMaskIdx rotRng cfgTwice (some 42)
          ((createRandMaskIdx rotRng cfgTwice (some 42) 0).2)).1
        = some [((0 : ℤ), 5), ((0 : ℤ), 6), ((0 : ℤ), 7)]
    ∧ (createRandMaskIdx rotRng cfgTwice (some 42) 0).1
        ≠ (createRandMaskIdx rotRng cfgTwice (some 42)
            ((createRandMaskIdx rotRng cfgTwice (some 42) 0).2)).1 := by
  decide

/-- With a truthy seed every layer of
`create_bigbird_simulated_attention_mask_list` is the same mask object. -/
theorem simulatedMaskList_truthy (M : RngModel) (c : MaskCfg) (v : ℕ) (hv : v ≠ 0) :
    ∀ (n s : ℕ), simulatedMaskList M c (some v) n s
      = match buildMask M c (some v) 0 with
        | none => if n = 0 then some [] else none
        | some r => some (List.replicate n (simLayer r)) := by
  intro n
  induction n with
  | zero =>
    intro s
    cases hb : buildMask M c (some v) 0 with
    | none => simp [simulatedMaskList]
    | some r => simp [simulatedMaskList, List.replicate]
  | succ n ih =>
    intro s
    have hdet := buildMask_state_free M c v hv s
    cases hb : buildMask M c (some v) 0 with
    | none =>
      rw [simulatedMaskList, hdet, hb, Option.none_bind]
      simp
    | some r =>
      rw [simulatedMaskList, hdet, hb, Option.some_bind, ih r.final_state, hb]
      simp [List.replicate_succ]

/-- C2 (amended): for a truthy seed, any two layers produced by
`create_bigbird_simulated_attention_mask_list` are identical (each layer
constructs `Mask` with the same `seed`, which reseeds the generator): the
per-layer random selections do not differ across depth. -/
theorem simulated_mask_list_layers_identical (M : RngModel) (c : MaskCfg)
    (v n s i j : ℕ) (hv : v ≠ 0) (hi : i < n) (hj : j < n) :
    (simulatedMaskList M c (some v) n s).bind (fun l => l[i]?)
      = (simulatedMaskList M c (some v) n s).bind (fun l => l[j]?) := by
  rw [simulatedMaskList_truthy M c v hv n s]
  cases hb : buildMask M c (some v) 0 with
  | none =>
    have hn : ¬ n = 0 := by omega
    simp [hn]
  | some r =>
    simp [List.getElem?_replicate, hi, hj]

/-- C2 witness at a concrete geometry and seed. -/
theorem simulated_mask_list_layers_identical_witness :
    (simulatedMaskList rotRng cfgA8 (some 42) 2 0).bind (fun l => l[0]?)
      = (simulatedMaskList rotRng cfgA8 (some 42) 2 0).bind (fun l => l[1]?) :=
  simulated_mask_list_layers_identical rotRng cfgA8 42 2 0 0 1 (by decide) (by decide)
    (by decide)

/-- C2 counterexample: with the fixed seed 42 the two layers carry the same
(nonempty) random-index list, refuting that random sampling differs by
layer. -/
theorem simulated_mask_list_layers_equal_cex :
    (simulatedMaskList rotRng cfgA8 (some 42) 2 0).bind (fun l => (l[0]?).map Prod.snd)
        = some [(0, 3), (0, 4), (0, 5), (0, 6), (0, 7), (0, 1), (0, 2)]
    ∧ (simulatedMaskList rotRng cfgA8 (some 42) 2 0).bind (fun l => (l[1]?).map Prod.snd)
        = some [(0, 3), (0, 4), (0, 5), (0, 6), (0, 7), (0, 1), (0, 2)] := by
  decide

/-- C5: in a completed construction, every entry of the first
`num_global_blocks * block_size` rows or columns of the final mask is 1, for
every head, whatever the window and random settings: the global writes are
never undone (later steps only write ones or take maxima). -/
theorem final_mask_global_rows_cols_one (M : RngModel) (c : MaskCfg) (sd : Option ℕ)
    (s0 : ℕ) (res : MaskResult) (hres : buildMask M c sd s0 = some res) (h q k : ℕ)
    (hq : q < c.query_length) (hk : k < c.key_length)
    (hg : q < c.num_global_blocks * c.block_size ∨ k < c.num_global_blocks * c.block_size) :
    res.mask h q k = 1 := by
  have e := buildMask_some_eq hres
  subst e
  show max (randMaskFn M c (initState M sd s0) h q k) (maskAfterWindowFn c h q k) = 1
  simp only [maskAfterWindowFn, globalMaskFn, randMaskFn]
  rw [if_pos hg, ite_self]
  split <;> decide

/-- C5 witness. -/
theorem final_mask_global_rows_cols_one_witness : resA8.mask 0 0 5 = 1 :=
  final_mask_global_rows_cols_one rotRng cfgA8 (some 42) 0 resA8 resA8_def 0 0 5
    (by decide) (by decide) (Or.inl (by decide))

/-- C6: the final mask is the elementwise maximum of the random sub-mask and
the global-union-window mask, the latter is the elementwise maximum of the
global and window sub-masks, and a position is 1 in the final mask exactly
when it is 1 in at least one of the three sub-masks. -/
theorem final_mask_union_of_submasks (M : RngModel) (c : MaskCfg) (sd : Option ℕ)
    (s0 : ℕ) (res : MaskResult) (hres : buildMask M c sd s0 = some res) (h q k : ℕ) :
    res.mask h q k
        = max (randMaskFn M c (initState M sd s0) h q k) (maskAfterWindowFn c h q k)
    ∧ maskAfterWindowFn c h q k = max (globalMaskFn c h q k) (windowMaskFn c h q k)
    ∧ (res.mask h q k = 1
        ↔ globalMaskFn c h q k = 1 ∨ windowMaskFn c h q k = 1
          ∨ randMaskFn M c (initState M sd s0) h q k = 1) := by
  have e := buildMask_some_eq hres
  subst e
  refine ⟨rfl, ?_, ?_⟩
  · simp only [maskAfterWindowFn, globalMaskFn, windowMaskFn]
    by_cases hw : windowCond c q k = true <;>
      by_cases hgc : (q < c.num_global_blocks * c.block_size
        ∨ k < c.num_global_blocks * c.block_size) <;>
      simp [hw, hgc]
  · show max (randMaskFn M c (initState M sd s0) h q k) (maskAfterWindowFn c h q k) = 1 ↔ _
    simp only [maskAfterWindowFn, globalMaskFn, windowMaskFn, randMaskFn]
    by_cases hw : windowCond c q k = true <;>
      by_cases hgc : (q < c.num_global_blocks * c.block_size
        ∨ k < c.num_global_blocks * c.block_size) <;>
      by_cases hr : randCond M c (initState M sd s0) h q k = true <;>
      simp [hw, hgc, hr]

/-- C6 witness. -/
theorem final_mask_union_of_submasks_witness :
    resA8.mask 0 5 2
      = max (randMaskFn rotRng cfgA8 (initState rotRng (some 42) 0) 0 5 2)
        (maskAfterWindowFn cfgA8 0 5 2) :=
  (final_mask_union_of_submasks rotRng cfgA8 (some 42) 0 resA8 resA8_def 0 5 2).1

/-- C9: for every query block and every key block in its clipped window range,
the final mask is 1 on the whole corresponding row/column rectangle, for
every head. -/
theorem final_mask_window_coverage (M : RngModel) (c : MaskCfg) (sd : Option ℕ)
    (s0 : ℕ) (res : MaskResult) (hres : buildMask M c sd s0 = some res)
    (h qb j q k : ℕ) (hqb : qb < c.num_query_blocks)
    (hjl : max 0 ((qb : ℤ) - (c.num_window_blocks : ℤ)) ≤ (j : ℤ))
    (hjr : (j : ℤ) ≤ min ((qb : ℤ) + (c.num_window_blocks : ℤ)) ((c.num_key_blocks : ℤ) - 1))
    (hql : qb * c.block_size ≤ q) (hqr : q < min ((qb + 1) * c.block_size) c.query_length)
    (hkl : j * c.block_size ≤ k) (hkr : k < (j + 1) * c.block_size)
    (hk : k < c.key_length) :
    res.mask h q k = 1 := by
  have e := buildMask_some_eq hres
  subst e
  have hw : windowCond c q k = true := by
    rw [windowCond, List.any_eq_true]
    refine ⟨qb, List.mem_range.mpr hqb, ?_⟩
    rw [Bool.and_eq_true]
    constructor
    · rw [inQueryBlock]
      exact decide_eq_true ⟨hql, hqr⟩
    · apply decide_eq_true
      constructor
      · calc max 0 ((qb : ℤ) - (c.num_window_blocks : ℤ)) * (c.block_size : ℤ)
            ≤ (j : ℤ) * (c.block_size : ℤ) :=
              mul_le_mul_of_nonneg_right hjl (by positivity)
          _ ≤ (k : ℤ) := by exact_mod_cast hkl
      · calc (k : ℤ) < ((j : ℤ) + 1) * (c.block_size : ℤ) := by exact_mod_cast hkr
          _ ≤ (min ((qb : ℤ) + (c.num_window_blocks : ℤ)) ((c.num_key_blocks : ℤ) - 1) + 1)
              * (c.block_size : ℤ) :=
            mul_le_mul_of_nonneg_right (by omega) (by positivity)
  show max (randMaskFn M c (initState M sd s0) h q k) (maskAfterWindowFn c h q k) = 1
  simp only [maskAfterWindowFn, randMaskFn, hw, if_true]
  split <;> decide

/-- C9 witness. -/
theorem final_mask_window_coverage_witness : resA8.mask 0 2 1 = 1 :=
  final_mask_window_coverage rotRng cfgA8 (some 42) 0 resA8 resA8_def 0 2 1 2 1
    (by decide) (by decide) (by decide) (by decide) (by decide) (by decide) (by decide)
    (by decide)

/-- C10: the block geometry of `Mask.__init__`: ceil-divided block counts, the
half-window radius, coverage `num_query_blocks * block_size >= query_length`,
and the `[num_heads, query_length, key_length]` mask shape. -/
theorem mask_block_geometry (M : RngModel) (c : MaskCfg) (sd : Option ℕ) (s0 : ℕ)
    (res : MaskResult) (hres : buildMask M c sd s0 = some res)
    (hbs : 0 < c.block_size) :
    c.num_query_blocks = (c.query_length + c.block_size - 1) / c.block_size
    ∧ c.num_key_blocks = (c.key_length + c.block_size - 1) / c.block_size
    ∧ c.num_window_blocks = c.window_size / 2
    ∧ c.query_length ≤ c.num_query_blocks * c.block_size
    ∧ res.mask_list.length = c.num_heads
    ∧ ∀ row ∈ res.mask_list, row.length = c.query_length
        ∧ ∀ e ∈ row, e.length = c.key_length := by
  have e := buildMask_some_eq hres
  subst e
  have hm : (mkMaskResult M c (initState M sd s0)).mask_list
      = materialize c (finalMaskFn M c (initState M sd s0)) := rfl
  refine ⟨floor_succ_eq_ceil_div _ _ hbs, floor_succ_eq_ceil_div _ _ hbs, rfl,
    le_blocks_mul _ _ hbs, ?_, ?_⟩
  · rw [hm, materialize]
    simp
  · rw [hm, materialize]
    intro row hrow
    obtain ⟨hh, _, hrw⟩ := List.mem_map.mp hrow
    constructor
    · rw [← hrw]
      simp
    · intro el hel
      rw [← hrw] at hel
      obtain ⟨hq, _, hqw⟩ := List.mem_map.mp hel
      rw [← hqw]
      simp

/-- C10 witness. -/
theorem mask_block_geometry_witness : resA8.mask_list.length = cfgA8.num_heads :=
  (mask_block_geometry rotRng cfgA8 (some 42) 0 resA8 resA8_def (by decide)).2.2.2.2.1

/-- C3 (amended): when the permutation draws are true permutations and every
query block has the same number `cnt` of legal blocks, with
`cnt < num_rand_blocks`, `Mask` construction completes without error: every
selection holds exactly the `cnt` available legal blocks (shorter than
requested) and the flat index list has `num_heads * (num_query_blocks -
num_global_blocks) * cnt` entries.  (When the legal counts differ between
query blocks, the ragged selection grid makes the construction raise; see the
counterexample.) -/
theorem mask_build_underfill_uniform_completes (M : RngModel) (c : MaskCfg)
    (sd : Option ℕ) (s0 : ℕ)
    (hperm : ∀ s, (M.perm s c.num_key_blocks).Perm (List.range c.num_key_blocks))
    (hH : 1 ≤ c.num_heads) (hL : 1 ≤ c.num_query_blocks) (hR : 1 ≤ c.num_rand_blocks)
    (cnt : ℕ)
    (hcnt : ∀ qb, qb < c.num_query_blocks →
      legalCount c.num_key_blocks c.num_global_blocks c.num_window_blocks qb = cnt)
    (hlt : cnt < c.num_rand_blocks) :
    ∃ res, buildMask M c sd s0 = some res
      ∧ (∀ qb h2, qb < c.num_query_blocks →
          (maskSel M c (initState M sd s0) qb h2).length = cnt)
      ∧ res.rand_mask_idx.length
          = c.num_heads * ((c.num_query_blocks - c.num_global_blocks) * cnt) := by
  have hlen : ∀ qb h2, qb < c.num_query_blocks →
      (maskSel M c (initState M sd s0) qb h2).length = cnt := by
    intro qb h2 hqb
    rw [maskSel_length M c (initState M sd s0) qb h2 (hperm _) hR, hcnt qb hqb]
    omega
  have hsucc : maskSuccess M c (initState M sd s0) = true := by
    rw [maskSuccess]
    simp only [Bool.and_eq_true, decide_eq_true_eq, List.all_eq_true, beq_iff_eq]
    refine ⟨⟨hH, hL⟩, ?_⟩
    intro h2 hh2 qb hqb
    rw [hlen qb h2 (List.mem_range.mp hqb), hlen 0 0 (by omega)]
  refine ⟨mkMaskResult M c (initState M sd s0), ?_, hlen, ?_⟩
  · rw [buildMask, if_pos hsucc]
  · show (maskFlatIdx M c (initState M sd s0)).length = _
    have hR00 : (maskSel M c (initState M sd s0) 0 0).length = cnt := hlen 0 0 (by omega)
    have h2 : ∀ i, ∀ j ∈ List.range (c.num_query_blocks - c.num_global_blocks),
        ((List.range (maskSel M c (initState M sd s0) 0 0).length).map
          (fun kk => (i, (maskSel M c (initState M sd s0)
            (c.num_global_blocks + j) i).getD kk 0))).length = cnt := by
      intro i j _
      rw [List.length_map, List.length_range, hR00]
    have h1 : ∀ i ∈ List.range c.num_heads,
        ((List.range (c.num_query_blocks - c.num_global_blocks)).flatMap (fun j =>
          (List.range (maskSel M c (initState M sd s0) 0 0).length).map
            (fun kk => (i, (maskSel M c (initState M sd s0)
              (c.num_global_blocks + j) i).getD kk 0)))).length
          = (c.num_query_blocks - c.num_global_blocks) * cnt := by
      intro i _
      rw [length_flatMap_const _ _ cnt (h2 i), List.length_range]
    rw [maskFlatIdx, tripleLoop_eq, length_flatMap_const _ _ _ h1, List.length_range]

/-- C3 witness: a geometry in which every query block has zero legal blocks
while one is requested; construction completes with empty selections. -/
theorem mask_build_underfill_uniform_completes_witness :
    ∃ res, buildMask rotRng cfgUnder (some 7) 0 = some res
      ∧ (∀ qb h2, qb < cfgUnder.num_query_blocks →
          (maskSel rotRng cfgUnder (initState rotRng (some 7) 0) qb h2).length = 0)
      ∧ res.rand_mask_idx.length
          = cfgUnder.num_heads
            * ((cfgUnder.num_query_blocks - cfgUnder.num_global_blocks) * 0) :=
  mask_build_underfill_uniform_completes rotRng cfgUnder (some 7) 0
    (fun s => List.rotate_perm (List.range cfgUnder.num_key_blocks) s)
    (by decide) (by decide) (by decide) 0
    (by
      intro qb hqb
      have h3 : qb < 3 := hqb
      interval_cases qb <;> decide)
    (by decide)

/-- C3 counterexample: in `cfgRagged` query block 8 has a single legal block
(fewer than the two requested), yet construction does not complete with a
shorter selection: the legal counts are not uniform across query blocks
(block 0 still has two), the selection grid is ragged, and the
`np.stack`/`shape[2]` sequence raises. -/
theorem mask_build_ragged_underfill_raises :
    buildMask rotRng cfgRagged (some 42) 0 = none
    ∧ legalCount cfgRagged.num_key_blocks cfgRagged.num_global_blocks
        cfgRagged.num_window_blocks 8 = 1
    ∧ legalCount cfgRagged.num_key_blocks cfgRagged.num_global_blocks
        cfgRagged.num_window_blocks 0 = 2
    ∧ 8 < cfgRagged.num_query_blocks
    ∧ 1 < cfgRagged.num_rand_blocks :=
  ⟨rfl, by decide⟩

/-- C7 (amended): the flat random-index lists are in row-major
(head, non-global query block, slot) order, one entry per triple.  For
`Mask.get_rand_mask_idx` each entry is `(head_index, sampled key_block
index)`; for `create_bigbird_rand_mask_idx` each entry is `(head_index,
sampled key_block index - num_global_blocks // 2)` — the source subtracts
`num_global_blocks // 2` before flattening, so its entries are not the raw
sampled block indices (see the counterexample). -/
theorem rand_mask_idx_row_major_layout (M : RngModel) (c : MaskCfg) (sd : Option ℕ)
    (s0 : ℕ) (res : MaskResult) (hres : buildMask M c sd s0 = some res)
    (hcs : createSuccess M c s0 = true) :
    res.rand_mask_idx = (List.range c.num_heads).flatMap (fun i =>
        (List.range (c.num_query_blocks - c.num_global_blocks)).flatMap (fun j =>
          (maskSel M c (initState M sd s0) (c.num_global_blocks + j) i).map
            (fun v => (i, v))))
    ∧ (createRandMaskIdx M c sd s0).1
        = some ((List.range c.num_heads).flatMap (fun i =>
            (List.range (c.num_query_blocks_floor - c.num_global_blocks)).flatMap (fun j =>
              (createSel M c s0 (c.num_global_blocks + j) i).map (fun (v : ℕ) =>
                ((i : ℤ), (v : ℤ) - ((c.num_global_blocks / 2 : ℕ) : ℤ)))))) := by
  have hsucc := buildMask_some_success hres
  rw [maskSuccess] at hsucc
  simp only [Bool.and_eq_true, decide_eq_true_eq, List.all_eq_true, beq_iff_eq] at hsucc
  obtain ⟨-, hall⟩ := hsucc
  have e := buildMask_some_eq hres
  subst e
  constructor
  · show maskFlatIdx M c (initState M sd s0) = _
    rw [maskFlatIdx, tripleLoop_eq]
    apply List.flatMap_congr
    intro i hi
    apply List.flatMap_congr
    intro j hj
    have hgj : c.num_global_blocks + j ∈ List.range c.num_query_blocks := by
      rw [List.mem_range] at hj ⊢
      omega
    have hlen : (maskSel M c (initState M sd s0) (c.num_global_blocks + j) i).length
        = (maskSel M c (initState M sd s0) 0 0).length := hall i hi _ hgj
    rw [← hlen]
    exact map_comp_getD_range (maskSel M c (initState M sd s0) (c.num_global_blocks + j) i)
      0 (fun v => (i, v))
  · have hcs2 := hcs
    rw [createSuccess] at hcs2
    simp only [Bool.and_eq_true, decide_eq_true_eq, List.all_eq_true, beq_iff_eq] at hcs2
    obtain ⟨⟨-, hallc⟩, -⟩ := hcs2
    have hrows : ∀ h2 ∈ List.range c.num_heads,
        ((List.range (c.num_query_blocks_floor - c.num_global_blocks)).flatMap (fun j =>
          (createSel M c s0 (c.num_global_blocks + j) h2).map (fun (v : ℕ) =>
            (v : ℤ) - ((c.num_global_blocks / 2 : ℕ) : ℤ)))).length
          = (c.num_query_blocks_floor - c.num_global_blocks)
              * (createSel M c s0 0 0).length := by
      intro h2 hh2
      have hinner : ∀ j ∈ List.range (c.num_query_blocks_floor - c.num_global_blocks),
          ((createSel M c s0 (c.num_global_blocks + j) h2).map (fun (v : ℕ) =>
            (v : ℤ) - ((c.num_global_blocks / 2 : ℕ) : ℤ))).length
            = (createSel M c s0 0 0).length := by
        intro j hj
        have hgj : c.num_global_blocks + j ∈ List.range c.num_query_blocks_floor := by
          rw [List.mem_range] at hj ⊢
          omega
        rw [List.length_map, hallc h2 hh2 _ hgj]
      rw [length_flatMap_const _ _ _ hinner, List.length_range]
    have hfst : (createRandMaskIdx M c sd s0).1 = some (createFlat M c s0) := by
      show (if createSuccess M c s0 then some (createFlat M c s0) else none) = _
      rw [if_pos hcs]
    rw [hfst]
    congr 1
    rw [createFlat, createHeadCol, createRandCol,
      zip_flatMap_replicate (fun h2 => ((h2 : ℕ) : ℤ)) _ _ _ hrows]
    apply List.flatMap_congr
    intro h2 _
    rw [List.map_flatMap]
    apply List.flatMap_congr
    intro j _
    rw [List.map_map]
    rfl

/-- C7 witness at a concrete geometry where both list builders complete. -/
theorem rand_mask_idx_row_major_layout_witness :
    resA8.rand_mask_idx = (List.range cfgA8.num_heads).flatMap (fun i =>
        (List.range (cfgA8.num_query_blocks - cfgA8.num_global_blocks)).flatMap (fun j =>
          (maskSel rotRng cfgA8 (initState rotRng (some 42) 0)
            (cfgA8.num_global_blocks + j) i).map (fun v => (i, v)))) :=
  (rand_mask_idx_row_major_layout rotRng cfgA8 (some 42) 0 resA8 resA8_def (by decide)).1

/-- At `cfgUnder` every selection is empty, so the sliced grid has size
`(num_query_blocks - num_global_blocks) * 0 = 0` and the `np.pad` call in
`create_bigbird_rand_mask_idx` receives pad width `-1` and raises: the model
returns no list there. -/
theorem create_pad_raise_modelled :
    (createRandMaskIdx rotRng cfgUnder (some 7) 0).1 = none := rfl

/-- C7 counterexample: with two global blocks, the first entry of
`create_bigbird_rand_mask_idx` stores `3` although the sampled key block for
(head 0, first non-global query block) is `4`: entries are shifted by
`num_global_blocks // 2 = 1` and are not the sampled key-block indices. -/
theorem create_rand_mask_idx_shifted_cex :
    ((createRandMaskIdx rotRng cfgShift (some 42) 0).1.bind (fun l => l[0]?))
        = some ((0 : ℤ), 3)
    ∧ createSel rotRng cfgShift 0 2 0 = [4]
    ∧ ((0 : ℤ), (3 : ℤ)) ≠ ((0 : ℤ), (4 : ℤ)) := by
  decide

/-- C4: noninterference of the block-sparse forward with respect to
`attn_mask` and `rand_mask_idx`: for every geometry, semantics, tensors,
masks and dropout setting, changing either of the two random-attention inputs
leaves the output unchanged — the body of `forward` reads neither (the random
path is commented out), so only the band (global+window) and global paths
contribute. -/
theorem bigbird_forward_ignores_attn_mask_and_rand_idx (sem : TensorSem) (c : SAttnCfg)
    (training : Bool) (T D : ℕ) (query_matrix key_matrix value_matrix : Fn4)
    (d_head : ℚ) (am1 am2 : Fn4) (r1 r2 : List (ℕ × ℕ)) (query_mask key_mask : Fn4)
    (dropout : ℚ) :
    bigbirdForward sem c training T D query_matrix key_matrix value_matrix d_head am1 r1
        query_mask key_mask dropout
      = bigbirdForward sem c training T D query_matrix key_matrix value_matrix d_head am2 r2
        query_mask key_mask dropout := rfl

/-- C8: the output of the block-sparse forward is, row for row, the
concatenation (front global rows) ++ (non-global band rows) ++ (back global
rows) in original sequence order, multiplied by the query mask; in
particular any sequence row whose query-mask entry is 0 is entirely zero. -/
theorem bigbird_forward_row_order_and_masking (sem : TensorSem) (c : SAttnCfg)
    (training : Bool) (T D : ℕ) (query_matrix key_matrix value_matrix : Fn4)
    (d_head : ℚ) (attn_mask : Fn4) (rand_mask_idx : List (ℕ × ℕ))
    (query_mask key_mask : Fn4) (dropout : ℚ) (b h t d : ℕ) :
    (query_mask b 0 t 0 = 0 →
      bigbirdForward sem c training T D query_matrix key_matrix value_matrix d_head
        attn_mask rand_mask_idx query_mask key_mask dropout b h t d = 0)
    ∧ (t < c.num_global_blocks_front * c.block_size →
      bigbirdForward sem c training T D query_matrix key_matrix value_matrix d_head
          attn_mask rand_mask_idx query_mask key_mask dropout b h t d
        = getGlobalOut sem c training T D query_matrix key_matrix value_matrix key_mask
            d_head dropout true b h t d * query_mask b 0 t 0)
    ∧ (c.num_global_blocks_front * c.block_size ≤ t
        ∧ t < c.num_global_blocks_front * c.block_size
            + (T / c.block_size - c.num_global_blocks) * c.block_size →
      bigbirdForward sem c training T D query_matrix key_matrix value_matrix d_head
          attn_mask rand_mask_idx query_mask key_mask dropout b h t d
        = secondOut sem c training T D query_matrix key_matrix value_matrix d_head
            query_mask key_mask dropout b h
            (t - c.num_global_blocks_front * c.block_size) d * query_mask b 0 t 0)
    ∧ (c.num_global_blocks_front * c.block_size
        + (T / c.block_size - c.num_global_blocks) * c.block_size ≤ t →
      bigbirdForward sem c training T D query_matrix key_matrix value_matrix d_head
          attn_mask rand_mask_idx query_mask key_mask dropout b h t d
        = getGlobalOut sem c training T D query_matrix key_matrix value_matrix key_mask
            d_head dropout false b h
            (t - (c.num_global_blocks_front * c.block_size
              + (T / c.block_size - c.num_global_blocks) * c.block_size)) d
          * query_mask b 0 t 0) := by
  refine ⟨?_, ?_, ?_, ?_⟩
  · intro h0
    simp only [bigbirdForward]
    rw [h0, mul_zero]
  · intro ht
    simp only [bigbirdForward]
    rw [if_pos ht]
  · intro ht
    simp only [bigbirdForward]
    rw [if_neg (not_lt.mpr ht.1), if_pos ht.2]
  · intro ht
    simp only [bigbirdForward]
    rw [if_neg (not_lt.mpr (le_trans (Nat.le_add_right _ _) ht)), if_neg (not_lt.mpr ht)]

/-- A concrete executable semantics for the abstract tensor kernels. -/
def semId : TensorSem := ⟨fun _n row i => row i, fun _p _tr f => f, fun _p _tr f => f, fun x => x⟩

/-- The zero 4-axis tensor. -/
def zeroFn4 : Fn4 := fun _ _ _ _ => 0

/-- A concrete sparse-attention configuration: one head, block size 1,
window 3, one global block, one random block. -/
def cfgAttn : SAttnCfg := ⟨1, 1, 3, 1, 1⟩

/-- C8 witness: the zero-mask row is zero, and the first row is the front
global row times the query mask, at a concrete instance. -/
theorem bigbird_forward_row_order_and_masking_witness :
    bigbirdForward semId cfgAttn false 4 1 zeroFn4 zeroFn4 zeroFn4 1 zeroFn4 []
        zeroFn4 zeroFn4 0 0 0 0 0 = 0
    ∧ bigbirdForward semId cfgAttn false 4 1 zeroFn4 zeroFn4 zeroFn4 1 zeroFn4 []
        zeroFn4 zeroFn4 0 0 0 0 0
      = getGlobalOut semId cfgAttn false 4 1 zeroFn4 zeroFn4 zeroFn4 zeroFn4 1 0 true
          0 0 0 0 * zeroFn4 0 0 0 0 :=
  ⟨(bigbird_forward_row_order_and_masking semId cfgAttn false 4 1 zeroFn4 zeroFn4 zeroFn4
      1 zeroFn4 [] zeroFn4 zeroFn4 0 0 0 0 0).1 rfl,
    (bigbird_forward_row_order_and_masking semId cfgAttn false 4 1 zeroFn4 zeroFn4 zeroFn4
      1 zeroFn4 [] zeroFn4 zeroFn4 0 0 0 0 0).2.1 (by decide)⟩
